import Mathlib

/-!
Shallow embedding of the BART transit-equity data pipeline
(`src/fetch_lehd_commute_data.py` and `src/data/fetch_block_group_data.py`).

Tables are lists of rows; pandas string columns are Lean `String`s;
Python slicing `s[:w]` is truncation of the character list; pandas
`Series.isin(list)` is exact-string list membership; numeric columns are
modelled over `ℚ`, with the IEEE special values produced by pandas/numpy
division by zero represented explicitly by the `PdVal` type.
-/

section TransitEquity

attribute [local semireducible] Rat.inv Rat.mul Rat.add Rat.sub Rat.ofScientific

/-- Python string slicing `s[:w]`: the first `w` characters of `s`
(the whole string when `s` is shorter than `w`). -/
def truncId (w : Nat) (s : String) : String :=
  { data := s.data.take w }

/-- The geographic filter pattern shared by `fetch_lodes`
(`chunk[chunk['w_geocode'].str[:11].isin(berkeley_tracts)]`) and the
block-group filter (`bg_geo[bg_geo['TRACTCE'].str[:4].isin(berkeley_tracts)]`):
keep the rows whose width-`w` prefix-truncated identifier is an exact-string
member of the allow-list. -/
def geoFilter {ρ : Type} (w : Nat) (allow : List String) (getId : ρ → String)
    (rows : List ρ) : List ρ :=
  rows.filter (fun r => truncId w (getId r) ∈ allow)

/-- A LODES origin-destination record: workplace geocode, home geocode,
total job count `S000` (a non-negative integer). -/
structure FlowRow where
  w_geocode : String
  h_geocode : String
  S000 : Nat
deriving DecidableEq, Repr

/-- `berkeley_tracts` from `fetch_lehd_commute_data.py`: the 19 Berkeley
census-tract codes used as the study-area allow-list. -/
def berkeley_tracts : List String :=
  ["06001400500", "06001400700", "06001421800", "06001421900", "06001422200",
   "06001422300", "06001422400", "06001422500", "06001422800", "06001422901",
   "06001423000", "06001423100", "06001423400", "06001423500", "06001423601",
   "06001423602", "06001423901", "06001423902", "06001424001"]

/-- `w_tract`: `w_geocode[:11]`, the tract-level truncation of the
workplace geocode. -/
def w_tract (r : FlowRow) : String := truncId 11 r.w_geocode

/-- `h_tract`: `h_geocode[:11]`. -/
def h_tract (r : FlowRow) : String := truncId 11 r.h_geocode

/-- `h_county`: `h_geocode[:5]` (state + county), as in `top_origins`. -/
def h_county (r : FlowRow) : String := truncId 5 r.h_geocode

/-- `fetch_lodes`: consumes the remote file chunk by chunk, keeps in each
chunk the rows whose `w_tract` is a Berkeley tract, appends only the
non-empty filtered chunks, and concatenates them at the end
(`pd.concat(chunks, ignore_index=True)`).  Returns `none` when the download
raised an exception or when no chunk contributed a row. -/
def fetch_lodes (input : Except String (List (List FlowRow))) :
    Option (List FlowRow) :=
  match input with
  | .error _ => none
  | .ok chunkList =>
      let chunks := (chunkList.map
          (fun chunk => chunk.filter (fun r => w_tract r ∈ berkeley_tracts))).filter
        (fun c => 0 < c.length)
      if chunks.isEmpty then none else some chunks.flatten

/-- Total of the `S000` column: `df['S000'].sum()`. -/
def sumS000 (df : List FlowRow) : Nat :=
  (df.map FlowRow.S000).sum

/-- The record returned by `analyze_commutes`. -/
structure CommuteResults where
  year : String
  total_jobs : Nat
  same_tract : Nat
  live_work_berkeley : Nat
  commute_in : Nat
  pct_commute_in : ℚ
deriving DecidableEq, Repr

/-- `analyze_commutes` from `fetch_lehd_commute_data.py`: sums `S000` over
the rows with equal home and work tract, over the rows whose home tract is
a Berkeley tract, and over the rows whose home tract is not, and computes
`pct_commute_in = commute_in / total * 100 if total > 0 else 0`. -/
def analyze_commutes (df : List FlowRow) (year : String) : CommuteResults :=
  let same_tract := sumS000 (df.filter (fun r => h_tract r = w_tract r))
  let live_work_berkeley := sumS000 (df.filter (fun r => h_tract r ∈ berkeley_tracts))
  let commute_in := sumS000 (df.filter (fun r => ¬ h_tract r ∈ berkeley_tracts))
  let total := sumS000 df
  { year := year
    total_jobs := total
    same_tract := same_tract
    live_work_berkeley := live_work_berkeley
    commute_in := commute_in
    pct_commute_in := if 0 < total then (commute_in : ℚ) / (total : ℚ) * 100 else 0 }

/-- The top-level control flow of `fetch_lehd_commute_data.py` after the
two `fetch_lodes` calls: `if df_2019 is None or df_2021 is None:` print a
diagnostic and `exit(1)`; otherwise run the analysis stage
(`analyze_commutes` for both years) and write the two filtered tables out
as the CSV artifacts.  The error value carries the diagnostic message and
the process exit status. -/
def runScript (in19 in21 : Except String (List (List FlowRow))) :
    Except (String × Nat)
      (CommuteResults × CommuteResults × List FlowRow × List FlowRow) :=
  match fetch_lodes in19, fetch_lodes in21 with
  | some df19, some df21 =>
      .ok (analyze_commutes df19 "2019", analyze_commutes df21 "2021", df19, df21)
  | _, _ => .error ("Failed to fetch LEHD data", 1)

/-- `df.groupby(key)['S000'].sum()` evaluated at one group `k`:
the sum of `val` over the rows whose key equals `k`. -/
def groupSumBy {ρ : Type} (key : ρ → String) (val : ρ → Nat)
    (rows : List ρ) (k : String) : Nat :=
  ((rows.filter (fun r => key r = k)).map val).sum

/-- A pandas/numpy float value as produced by the block-group ratio
columns: either an ordinary number (modelled exactly over `ℚ`) or one of
the IEEE special values NaN, +inf, −inf that numpy division by zero
produces instead of raising. -/
inductive PdVal where
  | nan : PdVal
  | pinf : PdVal
  | ninf : PdVal
  | num : ℚ → PdVal
deriving DecidableEq, Repr

/-- numpy/pandas elementwise division of numeric columns: ordinary
division when the denominator is non-zero; on a zero denominator it does
not raise but yields +inf, −inf or NaN according to the numerator's sign. -/
def pdDiv (a b : ℚ) : PdVal :=
  if b ≠ 0 then .num (a / b)
  else if 0 < a then .pinf
  else if a < 0 then .ninf
  else .nan

/-- Scaling a pandas value by 100 (`* 100`); the special values absorb it. -/
def pdMul100 (v : PdVal) : PdVal :=
  match v with
  | .num q => .num (q * 100)
  | v => v

/-- numpy round-half-to-even of a rational to an integer. -/
def rhe (q : ℚ) : ℤ :=
  let f := q.floor
  let r := q - (f : ℚ)
  if r < 1/2 then f
  else if 1/2 < r then f + 1
  else if f % 2 = 0 then f else f + 1

/-- pandas `Series.round(2)`: round the number to two decimals
(half to even); NaN and the infinities round to themselves. -/
def pdRound2 (v : PdVal) : PdVal :=
  match v with
  | .num q => .num ((rhe (q * 100) : ℚ) / 100)
  | v => v

/-- The ratio-column pattern of `fetch_block_group_data.py`:
`(numerator / denominator * 100).round(2)`. -/
def pandasPct (num den : ℚ) : PdVal :=
  pdRound2 (pdMul100 (pdDiv num den))

/-- A Census block-group row after `pd.to_numeric` conversion, with the
columns the derived ratios of `fetch_block_group_data.py` read.
(`tract_num` is derived later as `TRACTCE[:4]`.) -/
structure BgRow where
  TRACTCE : String
  total_population : ℚ
  college_grad_enrollment : ℚ
  total_households : ℚ
  no_vehicle_owner : ℚ
  no_vehicle_renter : ℚ
  in_labor_force : ℚ
  unemployed : ℚ
deriving DecidableEq, Repr

/-- `student_population = college_grad_enrollment`. -/
def student_population (r : BgRow) : ℚ := r.college_grad_enrollment

/-- `pct_students = (student_population / total_population * 100).round(2)`. -/
def pct_students (r : BgRow) : PdVal :=
  pandasPct (student_population r) r.total_population

/-- `households_no_vehicle = no_vehicle_owner + no_vehicle_renter`. -/
def households_no_vehicle (r : BgRow) : ℚ :=
  r.no_vehicle_owner + r.no_vehicle_renter

/-- `pct_no_vehicle = (households_no_vehicle / total_households * 100).round(2)`. -/
def pct_no_vehicle (r : BgRow) : PdVal :=
  pandasPct (households_no_vehicle r) r.total_households

/-- `unemployment_rate = (unemployed / in_labor_force * 100).round(2)`. -/
def unemployment_rate (r : BgRow) : PdVal :=
  pandasPct r.unemployed r.in_labor_force

/-- `berkeley_tracts` of `fetch_block_group_data.py`:
`[f'4{i:03d}' for i in range(220, 241)]`, i.e. "4220" … "4240". -/
def berkeley_tract_nums : List String :=
  (List.range 21).map (fun i => s!"4{220 + i}")

/-- `tract_num = TRACTCE[:4]`. -/
def tract_num (r : BgRow) : String := truncId 4 r.TRACTCE

/-- `berkeley_bg = bg_geo[bg_geo['tract_num'].isin(berkeley_tracts)]`. -/
def berkeley_bg (bg_geo : List BgRow) : List BgRow :=
  geoFilter 4 berkeley_tract_nums BgRow.TRACTCE bg_geo

/-- The row shape of the spec's end-to-end example: a tract identifier, a
population count and a no-vehicle household count. -/
structure TractRow where
  tract : String
  pop : ℚ
  no_vehicle : ℚ
deriving DecidableEq, Repr

/-! ## Helper lemmas -/

/-- `Rat.floor` agrees with the mathematical floor. -/
theorem ratFloor_eq_intFloor (q : ℚ) : q.floor = ⌊q⌋ := by
  rw [Rat.floor_def', Rat.floor_def]

/-- Round-half-to-even stays between any integer bounds that bracket its
argument. -/
theorem rhe_bounds (q : ℚ) (a b : ℤ) (ha : (a : ℚ) ≤ q) (hb : q ≤ (b : ℚ)) :
    a ≤ rhe q ∧ rhe q ≤ b := by
  have hfl : a ≤ ⌊q⌋ := by
    have h := Int.floor_le_floor ha
    simpa using h
  have hfu : ⌊q⌋ ≤ b := by
    have h := Int.floor_le_floor hb
    simpa using h
  have hcu : ⌈q⌉ ≤ b := by
    have h := Int.ceil_le_ceil hb
    simpa using h
  have hfloor : (⌊q⌋ : ℚ) ≤ q := Int.floor_le q
  simp only [rhe, ratFloor_eq_intFloor]
  split_ifs with h1 h2 h3
  · exact ⟨hfl, hfu⟩
  · have hlt : (⌊q⌋ : ℚ) < q := by linarith
    have hceil : ⌊q⌋ < ⌈q⌉ := Int.lt_ceil.mpr hlt
    exact ⟨by omega, by omega⟩
  · exact ⟨hfl, hfu⟩
  · have hlt : (⌊q⌋ : ℚ) < q := by
      push_neg at h1
      linarith
    have hceil : ⌊q⌋ < ⌈q⌉ := Int.lt_ceil.mpr hlt
    exact ⟨by omega, by omega⟩

/-- Dropping the empty chunks before concatenation does not change the
concatenation. -/
theorem flatten_filter_nonempty {ρ : Type} (M : List (List ρ)) :
    (M.filter (fun c => 0 < c.length)).flatten = M.flatten := by
  induction M with
  | nil => rfl
  | cons c M ih =>
      by_cases h : 0 < c.length
      · simp [List.filter_cons, h, ih]
      · have hc : c = [] := by
          cases c with
          | nil => rfl
          | cons x xs => simp at h
        simp [List.filter_cons, h, hc, ih]

/-- The kept-chunks list is empty exactly when the concatenation is. -/
theorem filter_nonempty_eq_nil_iff {ρ : Type} (M : List (List ρ)) :
    M.filter (fun c => 0 < c.length) = [] ↔ M.flatten = [] := by
  induction M with
  | nil => simp
  | cons c M ih =>
      by_cases h : 0 < c.length
      · have hc : c ≠ [] := by
          intro hc
          rw [hc] at h
          simp at h
        simp [List.filter_cons, h, hc]
      · have hc : c = [] := by
          cases c with
          | nil => rfl
          | cons x xs => simp at h
        simp [List.filter_cons, h, hc, ih]

/-- A cons step for grouped sums. -/
theorem groupSumBy_cons {ρ : Type} (key : ρ → String) (val : ρ → Nat)
    (r : ρ) (rest : List ρ) (k : String) :
    groupSumBy key val (r :: rest) k
      = (if key r = k then val r else 0) + groupSumBy key val rest k := by
  by_cases h : key r = k <;> simp [groupSumBy, List.filter_cons, h]

/-- Summing the per-group totals over any key set that covers the rows
recovers the total: every row contributes to exactly one group. -/
theorem groupSumBy_total {ρ : Type} (key : ρ → String) (val : ρ → Nat)
    (rows : List ρ) (K : Finset String) (hK : ∀ r ∈ rows, key r ∈ K) :
    K.sum (fun k => groupSumBy key val rows k) = (rows.map val).sum := by
  induction rows with
  | nil => simp [groupSumBy]
  | cons r rest ih =>
      have h1 : key r ∈ K := hK r (by simp)
      have h2 : ∀ x ∈ rest, key x ∈ K := fun x hx => hK x (by simp [hx])
      simp only [groupSumBy_cons]
      rw [Finset.sum_add_distrib, ih h2, Finset.sum_ite_eq, if_pos h1]
      simp

/-! ## Claim theorems -/

/-- C1: for every input table with a geographic-identifier column and every
allow-list, the geographic filter returns at most as many rows as it was
given, and every output row's fixed-width prefix-truncated identifier is a
member of the allow-list (membership being exact string equality). -/
theorem geoFilter_count_le_and_members {ρ : Type} (w : Nat)
    (allow : List String) (getId : ρ → String) (rows : List ρ) :
    (geoFilter w allow getId rows).length ≤ rows.length ∧
      ∀ r ∈ geoFilter w allow getId rows, truncId w (getId r) ∈ allow := by
  refine ⟨List.length_filter_le _ _, fun r hr => ?_⟩
  have h := (List.mem_filter.mp hr).2
  simpa using h

/-- Witness for C1 on a concrete one-row table: the output is no longer
than the input and the kept row's truncated geocode is in the allow-list. -/
theorem geoFilter_count_le_and_members_witness :
    (geoFilter 11 ["06001400500"] FlowRow.w_geocode
        [⟨"06001400500001", "06075012345001", 5⟩]).length ≤
      ([⟨"06001400500001", "06075012345001", 5⟩] : List FlowRow).length ∧
    truncId 11 (FlowRow.w_geocode ⟨"06001400500001", "06075012345001", 5⟩)
        ∈ ["06001400500"] :=
  ⟨(geoFilter_count_le_and_members 11 ["06001400500"] FlowRow.w_geocode
      [⟨"06001400500001", "06075012345001", 5⟩]).1,
   (geoFilter_count_le_and_members 11 ["06001400500"] FlowRow.w_geocode
      [⟨"06001400500001", "06075012345001", 5⟩]).2
      ⟨"06001400500001", "06075012345001", 5⟩ (by decide)⟩

/-- C5: the geographic filter is idempotent — applying it to its own
output returns that output unchanged. -/
theorem geoFilter_idempotent {ρ : Type} (w : Nat) (allow : List String)
    (getId : ρ → String) (rows : List ρ) :
    geoFilter w allow getId (geoFilter w allow getId rows)
      = geoFilter w allow getId rows := by
  simp [geoFilter, List.filter_filter]

/-- C8: an identifier strictly shorter than the truncation width is left
unchanged by prefix truncation, so the filter passes such a row through
unmodified exactly when the full identifier itself is in the allow-list. -/
theorem geoFilter_short_identifier {ρ : Type} (w : Nat)
    (allow : List String) (getId : ρ → String) (rows : List ρ) (r : ρ)
    (hshort : (getId r).length < w) :
    truncId w (getId r) = getId r ∧
      (r ∈ geoFilter w allow getId rows ↔ r ∈ rows ∧ getId r ∈ allow) := by
  have ht : truncId w (getId r) = getId r := by
    unfold truncId
    rw [List.take_of_length_le (le_of_lt hshort)]
  refine ⟨ht, ?_⟩
  simp [geoFilter, List.mem_filter, ht]

/-- Witness for C8 at a concrete short identifier: the 7-character geocode
"0600140" is below the tract truncation width 11, stays unmodified, and its
row is retained exactly because the full identifier is in the allow-list. -/
theorem geoFilter_short_identifier_witness :
    truncId 11 (FlowRow.w_geocode ⟨"0600140", "h", 2⟩) = "0600140" ∧
      ((⟨"0600140", "h", 2⟩ : FlowRow) ∈
          geoFilter 11 ["0600140"] FlowRow.w_geocode [⟨"0600140", "h", 2⟩] ↔
        (⟨"0600140", "h", 2⟩ : FlowRow) ∈ ([⟨"0600140", "h", 2⟩] : List FlowRow) ∧
          FlowRow.w_geocode ⟨"0600140", "h", 2⟩ ∈ ["0600140"]) :=
  geoFilter_short_identifier 11 ["0600140"] FlowRow.w_geocode
    [⟨"0600140", "h", 2⟩] ⟨"0600140", "h", 2⟩ (by decide)

/-- C4: on the spec's example table, filtering by the allow-list
consisting of tract "06001400500" and then computing
`pct_no_vehicle = no_vehicle / pop * 100` yields exactly the one matching
row, whose percentage is 20. -/
theorem filter_then_pct_no_vehicle_example :
    geoFilter 11 ["06001400500"] TractRow.tract
        [⟨"06001400500", 100, 20⟩, ⟨"06001999999", 50, 10⟩]
      = [⟨"06001400500", 100, 20⟩] ∧
    (geoFilter 11 ["06001400500"] TractRow.tract
        [⟨"06001400500", 100, 20⟩, ⟨"06001999999", 50, 10⟩]).map
        (fun r => pandasPct r.no_vehicle r.pop)
      = [.num 20] := by
  constructor
  · decide
  · decide

/-- C7: chunked LEHD consumption is equivalent to full materialization
followed by filtering — for every chunk decomposition, `fetch_lodes`
returns exactly the rows (in order) that filtering the concatenated table
by workplace-tract membership would keep (`none` standing for the no-rows
outcome); and the spec's example chunk keeps its row, whose `S000` sums
to 5. -/
theorem fetch_lodes_equiv_full_filter :
    (∀ chunkList : List (List FlowRow),
      fetch_lodes (.ok chunkList) =
        (if (chunkList.flatten.filter
              (fun r => w_tract r ∈ berkeley_tracts)).isEmpty then none
         else some (chunkList.flatten.filter
              (fun r => w_tract r ∈ berkeley_tracts)))) ∧
    fetch_lodes (.ok [[⟨"06001400500001", "06075012345001", 5⟩]])
      = some [⟨"06001400500001", "06075012345001", 5⟩] ∧
    sumS000 [⟨"06001400500001", "06075012345001", 5⟩] = 5 := by
  refine ⟨fun chunkList => ?_, by decide, by decide⟩
  have hflat :
      ((chunkList.map
          (fun chunk => chunk.filter
            (fun r => w_tract r ∈ berkeley_tracts))).filter
        (fun c => 0 < c.length)).flatten
      = chunkList.flatten.filter (fun r => w_tract r ∈ berkeley_tracts) := by
    rw [flatten_filter_nonempty, ← List.filter_flatten]
  by_cases hfull :
      chunkList.flatten.filter (fun r => w_tract r ∈ berkeley_tracts) = []
  · have hchunks :
        (chunkList.map
            (fun chunk => chunk.filter
              (fun r => w_tract r ∈ berkeley_tracts))).filter
          (fun c => 0 < c.length) = [] := by
      rw [filter_nonempty_eq_nil_iff, ← List.filter_flatten]
      exact hfull
    simp [fetch_lodes, hchunks, hfull]
  · have hchunks :
        (chunkList.map
            (fun chunk => chunk.filter
              (fun r => w_tract r ∈ berkeley_tracts))).filter
          (fun c => 0 < c.length) ≠ [] := by
      rw [Ne, filter_nonempty_eq_nil_iff, ← List.filter_flatten]
      exact hfull
    have hb1 : (chunkList.flatten.filter
        (fun r => w_tract r ∈ berkeley_tracts)).isEmpty = false :=
      List.isEmpty_eq_false.mpr hfull
    have hb2 : ((chunkList.map
        (fun chunk => chunk.filter
          (fun r => w_tract r ∈ berkeley_tracts))).filter
        (fun c => 0 < c.length)).isEmpty = false :=
      List.isEmpty_eq_false.mpr hchunks
    simp only [fetch_lodes, hb1, hb2, Bool.false_eq_true, if_false, hflat]

/-- C9: if the data-acquisition stage for either year yields no table,
the script aborts with the diagnostic message and exit status 1, and no
analysis or artifact-writing output is ever produced. -/
theorem fetch_failure_aborts_run (in19 in21 : Except String (List (List FlowRow)))
    (h : fetch_lodes in19 = none ∨ fetch_lodes in21 = none) :
    runScript in19 in21 = .error ("Failed to fetch LEHD data", 1) ∧
      (∀ out, runScript in19 in21 ≠ .ok out) ∧ (1 : Nat) ≠ 0 := by
  have herr : runScript in19 in21 = .error ("Failed to fetch LEHD data", 1) := by
    cases h19 : fetch_lodes in19 with
    | none => cases h21 : fetch_lodes in21 <;> simp [runScript, h19, h21]
    | some df19 =>
        cases h21 : fetch_lodes in21 with
        | none => simp [runScript, h19, h21]
        | some df21 => rcases h with h | h <;> simp_all
  exact ⟨herr, fun out => by simp [herr], one_ne_zero⟩

/-- Witness for C9: a failed 2019 download (an exception) makes the run
abort with the diagnostic and exit status 1, with no analysis output. -/
theorem fetch_failure_aborts_run_witness :
    runScript (.error "HTTP 404") (.ok [])
        = .error ("Failed to fetch LEHD data", 1) ∧
      (∀ out, runScript (.error "HTTP 404") (.ok []) ≠ .ok out) ∧
      (1 : Nat) ≠ 0 :=
  fetch_failure_aborts_run (.error "HTTP 404") (.ok []) (Or.inl rfl)

/-- C10: `analyze_commutes` partitions the total exactly —
`live_work_berkeley + commute_in = total_jobs` because allow-list
membership and its negation partition the rows — and consequently
`pct_commute_in` lies in [0, 100] whenever `total_jobs > 0`. -/
theorem analyze_commutes_partition (df : List FlowRow) (y : String) :
    (analyze_commutes df y).live_work_berkeley
        + (analyze_commutes df y).commute_in
        = (analyze_commutes df y).total_jobs ∧
      (0 < (analyze_commutes df y).total_jobs →
        0 ≤ (analyze_commutes df y).pct_commute_in ∧
          (analyze_commutes df y).pct_commute_in ≤ 100) := by
  have hpart : sumS000 (df.filter (fun r => h_tract r ∈ berkeley_tracts)) +
      sumS000 (df.filter (fun r => ¬ h_tract r ∈ berkeley_tracts))
      = sumS000 df := by
    simpa [sumS000] using
      List.sum_map_filter_add_sum_map_filter_not
        (fun r => h_tract r ∈ berkeley_tracts) FlowRow.S000 df
  refine ⟨by simpa [analyze_commutes] using hpart, fun hpos => ?_⟩
  have hpos' : 0 < sumS000 df := by simpa [analyze_commutes] using hpos
  have hct : sumS000 (df.filter (fun r => ¬ h_tract r ∈ berkeley_tracts))
      ≤ sumS000 df := by omega
  have hpct : (analyze_commutes df y).pct_commute_in
      = (sumS000 (df.filter (fun r => ¬ h_tract r ∈ berkeley_tracts)) : ℚ)
        / (sumS000 df : ℚ) * 100 := by
    simp [analyze_commutes, hpos']
  have htq : (0 : ℚ) < (sumS000 df : ℚ) := by exact_mod_cast hpos'
  have hdivle : (sumS000 (df.filter (fun r => ¬ h_tract r ∈ berkeley_tracts)) : ℚ)
      / (sumS000 df : ℚ) ≤ 1 := by
    rw [div_le_one htq]
    exact_mod_cast hct
  have hdivnn : (0 : ℚ) ≤
      (sumS000 (df.filter (fun r => ¬ h_tract r ∈ berkeley_tracts)) : ℚ)
      / (sumS000 df : ℚ) :=
    div_nonneg (by positivity) htq.le
  constructor
  · rw [hpct]
    positivity
  · rw [hpct]
    nlinarith

/-- Witness for C10 on a one-row table with a positive job count: the
partition identity holds and the commute-in percentage is within
[0, 100]. -/
theorem analyze_commutes_partition_witness :
    ((analyze_commutes [⟨"06001400500001", "06075012345001", 5⟩] "2019").live_work_berkeley
        + (analyze_commutes [⟨"06001400500001", "06075012345001", 5⟩] "2019").commute_in
        = (analyze_commutes [⟨"06001400500001", "06075012345001", 5⟩] "2019").total_jobs) ∧
      (0 ≤ (analyze_commutes [⟨"06001400500001", "06075012345001", 5⟩] "2019").pct_commute_in ∧
        (analyze_commutes [⟨"06001400500001", "06075012345001", 5⟩] "2019").pct_commute_in ≤ 100) :=
  ⟨(analyze_commutes_partition [⟨"06001400500001", "06075012345001", 5⟩] "2019").1,
   (analyze_commutes_partition [⟨"06001400500001", "06075012345001", 5⟩] "2019").2
     (by decide)⟩

/-- C6: summing `S000` grouped by a row-derived key is invariant under
permutation of the rows — per-group totals and the overall total agree —
and summing the per-group totals over the keys occurring in the table
recovers the overall total, so every row's count contributes to exactly
one group. -/
theorem groupSum_perm_invariant :
    (∀ (key : FlowRow → String) (rows rows2 : List FlowRow), rows.Perm rows2 →
        (∀ k, groupSumBy key FlowRow.S000 rows k
            = groupSumBy key FlowRow.S000 rows2 k)
          ∧ sumS000 rows = sumS000 rows2) ∧
      ∀ (key : FlowRow → String) (rows : List FlowRow),
        (rows.map key).toFinset.sum
            (fun k => groupSumBy key FlowRow.S000 rows k)
          = sumS000 rows := by
  constructor
  · intro key rows rows2 hperm
    refine ⟨fun k => ?_, ?_⟩
    · exact ((hperm.filter _).map FlowRow.S000).sum_eq
    · exact (hperm.map FlowRow.S000).sum_eq
  · intro key rows
    refine groupSumBy_total key FlowRow.S000 rows _ fun r hr => ?_
    rw [List.mem_toFinset, List.mem_map]
    exact ⟨r, hr, rfl⟩

/-- Witness for C6: swapping the two rows of a concrete flow table leaves
the San-Francisco-county group total unchanged. -/
theorem groupSum_perm_invariant_witness :
    groupSumBy h_county FlowRow.S000
        [⟨"06001400500001", "06075012345001", 5⟩,
         ⟨"06001400500001", "06013123456001", 3⟩] "06075"
      = groupSumBy h_county FlowRow.S000
        [⟨"06001400500001", "06013123456001", 3⟩,
         ⟨"06001400500001", "06075012345001", 5⟩] "06075" :=
  (groupSum_perm_invariant.1 h_county
    [⟨"06001400500001", "06075012345001", 5⟩,
     ⟨"06001400500001", "06013123456001", 3⟩]
    [⟨"06001400500001", "06013123456001", 3⟩,
     ⟨"06001400500001", "06075012345001", 5⟩] (by decide)).1 "06075"

/-- C3: whenever the numerator is non-negative, at most the denominator,
and the denominator is non-zero, the derived ratio-valued field
`(numerator / denominator * 100).round(2)` is an ordinary number in the
closed interval [0, 100]. -/
theorem pandasPct_in_range (num den : ℚ) (h0 : 0 ≤ num) (hle : num ≤ den)
    (hne : den ≠ 0) :
    ∃ q : ℚ, pandasPct num den = .num q ∧ 0 ≤ q ∧ q ≤ 100 := by
  have hden : 0 < den := lt_of_le_of_ne (h0.trans hle) (Ne.symm hne)
  have hr0 : 0 ≤ num / den := div_nonneg h0 hden.le
  have hr1 : num / den ≤ 1 := (div_le_one hden).mpr hle
  have hb := rhe_bounds (num / den * 100 * 100) 0 10000
    (by push_cast; nlinarith) (by push_cast; nlinarith)
  refine ⟨(rhe (num / den * 100 * 100) : ℚ) / 100, ?_, ?_, ?_⟩
  · simp [pandasPct, pdDiv, pdMul100, pdRound2, hne]
  · have hn : (0 : ℚ) ≤ (rhe (num / den * 100 * 100) : ℚ) := by
      exact_mod_cast hb.1
    positivity
  · have hn : (rhe (num / den * 100 * 100) : ℚ) ≤ 10000 := by
      exact_mod_cast hb.2
    linarith

/-- Witness for C3: 20 out of 100 gives a rounded percentage inside
[0, 100]. -/
theorem pandasPct_in_range_witness :
    ∃ q : ℚ, pandasPct 20 100 = .num q ∧ 0 ≤ q ∧ q ≤ 100 :=
  pandasPct_in_range 20 100 (by decide) (by decide) (by decide)

/-- C2 is false as stated: the program has no single zero-denominator
sentinel.  Two zero-denominator evaluations of the very same ratio column
`pct_no_vehicle` produce different values (+inf when the numerator is 5,
NaN when it is 0), and the guarded `pct_commute_in` produces yet another
value (0) on a zero total. -/
theorem zero_den_not_single_sentinel :
    pct_no_vehicle ⟨"422000", 0, 0, 0, 5, 0, 0, 0⟩ = .pinf ∧
      pct_no_vehicle ⟨"422000", 0, 0, 0, 0, 0, 0, 0⟩ = .nan ∧
      (analyze_commutes [] "2019").pct_commute_in = 0 ∧
      PdVal.pinf ≠ PdVal.nan := by
  refine ⟨by decide, by decide, by decide, by decide⟩

/-- C2 amended: no ratio raises on a zero denominator and each yields a
defined value, but the value is not one program-wide sentinel:
`pct_commute_in` yields 0 through its explicit guard, while the
pandas-computed ratios yield the IEEE special value fixed by the
numerator's sign — NaN for zero, +inf for positive, −inf for negative. -/
theorem zero_den_ratio_policy (num den : ℚ) (df : List FlowRow) (y : String)
    (hden : den = 0) (htot : sumS000 df = 0) :
    pandasPct num den
        = (if 0 < num then .pinf else if num < 0 then .ninf else .nan) ∧
      (analyze_commutes df y).pct_commute_in = 0 := by
  subst hden
  constructor
  · by_cases h1 : 0 < num
    · simp [pandasPct, pdDiv, pdMul100, pdRound2, h1]
    · by_cases h2 : num < 0 <;>
        simp [pandasPct, pdDiv, pdMul100, pdRound2, h1, h2]
  · simp [analyze_commutes, htot]

/-- Witness for C2's amended statement at numerator 3, denominator 0 and
an empty flow table. -/
theorem zero_den_ratio_policy_witness :
    (pandasPct 3 0
        = (if (0 : ℚ) < 3 then .pinf else if (3 : ℚ) < 0 then .ninf else .nan)) ∧
      (analyze_commutes [] "2019").pct_commute_in = 0 :=
  zero_den_ratio_policy 3 0 [] "2019" rfl rfl

end TransitEquity
